import Mathlib

/-!
Shallow embedding of the laiout challenge client's core logic:
`src/rot13.rs` (the `Rot13Writer` byte-sink wrapper and the `rot13_character`
primitive) and the hash-pipeline portion of `main` in `src/main.rs`
(time-window quantization and construction of the buffer that gets hashed).
Bytes are modelled as `Nat` values; byte sinks as explicit state passing
returning `Except`; the `i64` unix timestamp as `Int` with Rust's `%`
modelled by `Int.tmod` (truncated remainder).
-/

/-- `LOWER_BEGIN_U8` in `src/rot13.rs`: `'a' as u8`. -/
def LOWER_BEGIN_U8 : Nat := 97

/-- `LOWER_END_U8` in `src/rot13.rs`: `'z' as u8`. -/
def LOWER_END_U8 : Nat := 122

/-- `UPPER_BEGIN_U8` in `src/rot13.rs`: `'A' as u8`. -/
def UPPER_BEGIN_U8 : Nat := 65

/-- `UPPER_END_U8` in `src/rot13.rs`: `'Z' as u8`. -/
def UPPER_END_U8 : Nat := 90

/-- Embedding of `rot13_character` in `src/rot13.rs`.  The guard follows the
source exactly: it accepts `lower_bound_inclusive..=(lower_bound_inclusive + 26)`,
a 27-value inclusive range. -/
def rot13_character (character lower_bound_inclusive : Nat) : Nat :=
  if ¬ (lower_bound_inclusive ≤ character ∧ character ≤ lower_bound_inclusive + 26) then
    character
  else
    ((character - lower_bound_inclusive + 13) % 26) + lower_bound_inclusive

/-- The per-byte transform performed inside `Rot13Writer::write`'s `match`:
dispatch on the lowercase and uppercase ASCII ranges, pass anything else
through unchanged. -/
def rot13byte (c : Nat) : Nat :=
  if LOWER_BEGIN_U8 ≤ c ∧ c ≤ LOWER_END_U8 then rot13_character c LOWER_BEGIN_U8
  else if UPPER_BEGIN_U8 ≤ c ∧ c ≤ UPPER_END_U8 then rot13_character c UPPER_BEGIN_U8
  else c

/-- A wrapped byte sink (Rust's `T: Write`): `write` consumes a byte slice and
returns the updated sink together with the count of bytes it reports accepted,
or an error; `flush` finalizes.  `σ` is the sink's state, `ε` its error type. -/
structure SinkModel (σ ε : Type) where
  write : σ → List Nat → Except ε (σ × Nat)
  flush : σ → Except ε σ

/-- `buf.chunks(8)` from `Rot13Writer::write`: chunks of 8 bytes, the last
chunk possibly shorter, no chunk for an empty input. -/
def chunksOf (l : List Nat) : List (List Nat) :=
  match l with
  | [] => []
  | x :: xs => ((x :: xs).take 8) :: chunksOf ((x :: xs).drop 8)
termination_by l.length
decreasing_by simp; omega

/-- The chunk loop of `Rot13Writer::write`: transform each chunk bytewise,
forward it with the inner sink's `write` (the `?` operator returns the inner
error as-is), and accumulate the counts the inner sink reports. -/
def writeChunks {σ ε : Type} (S : SinkModel σ ε) :
    List (List Nat) → σ → Except ε (σ × Nat)
  | [], s => .ok (s, 0)
  | c :: cs, s =>
    match S.write s (c.map rot13byte) with
    | .error e => .error e
    | .ok (s1, n) =>
      match writeChunks S cs s1 with
      | .error e => .error e
      | .ok (s2, m) => .ok (s2, n + m)

/-- Embedding of `Rot13Writer::write` in `src/rot13.rs`: empty input returns
`Ok(0)` before touching the inner sink; otherwise the chunk loop runs. -/
def Rot13Writer.write {σ ε : Type} (S : SinkModel σ ε) (s : σ) (buf : List Nat) :
    Except ε (σ × Nat) :=
  if buf.isEmpty then .ok (s, 0) else writeChunks S (chunksOf buf) s

/-- Embedding of `Rot13Writer::flush` in `src/rot13.rs`: delegate to the inner
sink's `flush`. -/
def Rot13Writer.flush {σ ε : Type} (S : SinkModel σ ε) (s : σ) : Except ε σ :=
  S.flush s

/-- `Vec<u8>` as a sink: accepts every byte, reports the full length written,
never fails. -/
def vecSink : SinkModel (List Nat) Empty where
  write s b := .ok (s ++ b, b.length)
  flush s := .ok s

/-- The spec's `transcode`: write a byte sequence through a `Rot13Writer`
wrapping an empty `Vec<u8>` and read the vector back. -/
def transcode (b : List Nat) : List Nat :=
  match Rot13Writer.write vecSink [] b with
  | .ok (s, _) => s
  | .error e => e.elim

/-- `most_recent_30_seconds` in `src/main.rs`:
`current_time - (current_time % 30)` on `i64`, with Rust's `%` being the
truncated remainder. -/
def timeWindow (t : Int) : Int := t - Int.tmod t 30

/-- Decimal ASCII rendering of a non-negative integer, as `write!("{}", n)`
produces for a non-negative `i64`: most significant digit first, no sign, no
extra leading zeros. -/
def natDecimalAscii (n : Nat) : List Nat := (Nat.toDigits 10 n).map Char.toNat

/-- The buffer passed to the hash in `src/main.rs`: the decoded bytes followed
by the decimal ASCII digits of the time window. -/
def hashedBuffer (decoded : List Nat) (window : Nat) : List Nat :=
  decoded ++ natDecimalAscii window

/-- The full buffer construction of `main`: decode result plus the digits of
`timeWindow` at timestamp `t`. -/
def pipelineBuffer (decoded : List Nat) (t : Int) : List Nat :=
  hashedBuffer decoded (timeWindow t).toNat

/-- Modelled from the spec: the `blake3` crate's `Hash::to_string` is external
to this repository; per the spec the 256-bit (32-byte) digest is "rendered as
64 lowercase hex characters", two hex digits per byte, most significant nibble
first. -/
def hexDigitAscii (n : Nat) : Nat := if n < 10 then 48 + n else 87 + n

/-- Modelled from the spec: lowercase hexadecimal rendering of a digest given
as a byte list. -/
def renderHex (digest : List Nat) : List Nat :=
  (digest.map (fun b => [hexDigitAscii (b / 16), hexDigitAscii (b % 16)])).flatten

/-- A byte is a lowercase hexadecimal ASCII character: `0`–`9` or `a`–`f`. -/
def isLowerHexDigit (c : Nat) : Bool :=
  decide ((48 ≤ c ∧ c ≤ 57) ∨ (97 ≤ c ∧ c ≤ 102))

/-- ASCII bytes of a string, for the concrete test vectors. -/
def asciiBytes (s : String) : List Nat := s.data.map Char.toNat

/-- The per-byte transform as the spec words it (lowercase letters rotate 13
positions within `a`–`z`, uppercase within `A`–`Z`, everything else is
unchanged); stated from the spec's words for the refinement comparison. -/
def specRot13 (c : Nat) : Nat :=
  if 97 ≤ c ∧ c ≤ 122 then 97 + ((c - 97 + 13) % 26)
  else if 65 ≤ c ∧ c ≤ 90 then 65 + ((c - 65 + 13) % 26)
  else c

/-- `rot13_character` with its defensive range guard removed: just the
rotation arithmetic. -/
def rot13CoreNoGuard (character lower_bound_inclusive : Nat) : Nat :=
  ((character - lower_bound_inclusive + 13) % 26) + lower_bound_inclusive

/-- The writer's per-byte transform rebuilt on the guard-free rotation. -/
def rot13byteNoGuard (c : Nat) : Nat :=
  if LOWER_BEGIN_U8 ≤ c ∧ c ≤ LOWER_END_U8 then rot13CoreNoGuard c LOWER_BEGIN_U8
  else if UPPER_BEGIN_U8 ≤ c ∧ c ≤ UPPER_END_U8 then rot13CoreNoGuard c UPPER_BEGIN_U8
  else c

/-- A sink that accepts every write, updating its state with `f` and reporting
the count `g` chooses (possibly fewer bytes than were handed over), and never
fails. -/
def totalSink {σ : Type} (f : σ → List Nat → σ) (g : σ → List Nat → Nat) :
    SinkModel σ Empty where
  write s b := .ok (f s b, g s b)
  flush s := .ok s

/-- Folding a chunk list through a total sink: every chunk updates the state
via `f`, and the reported counts `g` are summed. -/
def foldWrites {σ : Type} (f : σ → List Nat → σ) (g : σ → List Nat → Nat) :
    List (List Nat) → σ → σ × Nat
  | [], s => (s, 0)
  | c :: cs, s =>
    let r := foldWrites f g cs (f s c)
    (r.1, g s c + r.2)

/-- A sink that rejects every write and flush with error `7`. -/
def failSink : SinkModel Unit Nat where
  write _ _ := .error 7
  flush _ := .error 7

/-- ASCII bytes of `"hello"`. -/
def helloBytes : List Nat := [104, 101, 108, 108, 111]

theorem rot13byte_involutive (c : Nat) : rot13byte (rot13byte c) = c := by
  unfold rot13byte rot13_character LOWER_BEGIN_U8 LOWER_END_U8 UPPER_BEGIN_U8 UPPER_END_U8
  split_ifs <;> omega

theorem rot13byte_eq_specRot13 (c : Nat) : rot13byte c = specRot13 c := by
  unfold rot13byte specRot13 rot13_character LOWER_BEGIN_U8 LOWER_END_U8 UPPER_BEGIN_U8 UPPER_END_U8
  split_ifs <;> omega

theorem chunksOf_join (l : List Nat) : (chunksOf l).flatten = l := by
  induction l using chunksOf.induct with
  | case1 => simp [chunksOf]
  | case2 x xs ih =>
    rw [chunksOf, List.flatten_cons, ih, List.take_append_drop]

theorem chunksOf_map (f : Nat → Nat) (l : List Nat) :
    chunksOf (l.map f) = (chunksOf l).map (List.map f) := by
  induction l using chunksOf.induct with
  | case1 => simp [chunksOf]
  | case2 x xs ih =>
    have hm : (x :: xs).map f = f x :: xs.map f := rfl
    rw [hm, chunksOf, chunksOf, List.map_cons]
    rw [show (f x :: xs.map f) = (x :: xs).map f from rfl]
    rw [← List.map_take, ← List.map_drop, ih]

theorem vecSink_write (s b : List Nat) :
    vecSink.write s b = .ok (s ++ b, b.length) := rfl

theorem writeChunks_vecSink (cs : List (List Nat)) (s : List Nat) :
    writeChunks vecSink cs s =
      .ok (s ++ (cs.map (List.map rot13byte)).flatten,
           ((cs.map (List.map rot13byte)).flatten).length) := by
  induction cs generalizing s with
  | nil => simp [writeChunks]
  | cons c cs ih =>
    simp only [writeChunks, vecSink_write, ih, List.map_cons, List.flatten_cons]
    simp [List.append_assoc]

theorem transcode_eq_map (b : List Nat) : transcode b = b.map rot13byte := by
  cases b with
  | nil => rfl
  | cons x xs =>
    unfold transcode Rot13Writer.write
    rw [if_neg (by simp), writeChunks_vecSink]
    simp only [List.nil_append]
    rw [← chunksOf_map, chunksOf_join]

theorem renderHex_length (d : List Nat) : (renderHex d).length = 2 * d.length := by
  induction d with
  | nil => rfl
  | cons b bs ih =>
    have h : renderHex (b :: bs) =
        [hexDigitAscii (b / 16), hexDigitAscii (b % 16)] ++ renderHex bs := by
      simp [renderHex]
    rw [h, List.length_append, ih]
    simp only [List.length_cons, List.length_nil, List.length_singleton]
    omega

theorem hexDigitAscii_lower : ∀ n < 16, isLowerHexDigit (hexDigitAscii n) = true := by
  decide

theorem renderHex_mem (d : List Nat) (hd : ∀ b ∈ d, b < 256) (c : Nat)
    (hc : c ∈ renderHex d) : isLowerHexDigit c = true := by
  simp only [renderHex, List.mem_flatten, List.mem_map] at hc
  obtain ⟨l, ⟨b, hb, rfl⟩, hcl⟩ := hc
  have hb256 := hd b hb
  simp only [List.mem_cons, List.mem_singleton, List.not_mem_nil] at hcl
  rcases hcl with rfl | rfl | h
  · exact hexDigitAscii_lower _ (by omega)
  · exact hexDigitAscii_lower _ (by omega)
  · cases h

theorem writeChunks_nil {σ ε : Type} (S : SinkModel σ ε) (s : σ) :
    writeChunks S [] s = .ok (s, 0) := rfl

theorem writeChunks_cons_error {σ ε : Type} (S : SinkModel σ ε) (c : List Nat)
    (cs : List (List Nat)) (s : σ) (e1 : ε)
    (hw : S.write s (c.map rot13byte) = .error e1) :
    writeChunks S (c :: cs) s = .error e1 := by
  simp only [writeChunks, hw]

theorem writeChunks_cons_ok_error {σ ε : Type} (S : SinkModel σ ε) (c : List Nat)
    (cs : List (List Nat)) (s s1 : σ) (n : Nat) (e2 : ε)
    (hw : S.write s (c.map rot13byte) = .ok (s1, n))
    (hw2 : writeChunks S cs s1 = .error e2) :
    writeChunks S (c :: cs) s = .error e2 := by
  simp only [writeChunks, hw, hw2]

theorem writeChunks_cons_ok_ok {σ ε : Type} (S : SinkModel σ ε) (c : List Nat)
    (cs : List (List Nat)) (s s1 s2 : σ) (n m : Nat)
    (hw : S.write s (c.map rot13byte) = .ok (s1, n))
    (hw2 : writeChunks S cs s1 = .ok (s2, m)) :
    writeChunks S (c :: cs) s = .ok (s2, n + m) := by
  simp only [writeChunks, hw, hw2]

theorem writeChunks_error {σ ε : Type} (S : SinkModel σ ε) (cs : List (List Nat))
    (s : σ) (e : ε) (h : writeChunks S cs s = .error e) :
    ∃ (s2 : σ) (c : List Nat), S.write s2 (c.map rot13byte) = .error e := by
  induction cs generalizing s with
  | nil => rw [writeChunks_nil] at h; cases h
  | cons c cs ih =>
    cases hw : S.write s (c.map rot13byte) with
    | error e1 =>
      rw [writeChunks_cons_error S c cs s e1 hw] at h
      injection h with he
      exact ⟨s, c, by rw [hw, he]⟩
    | ok p =>
      obtain ⟨s1, n⟩ := p
      cases hw2 : writeChunks S cs s1 with
      | error e2 =>
        rw [writeChunks_cons_ok_error S c cs s s1 n e2 hw hw2] at h
        injection h with he
        exact ih s1 (by rw [hw2, he])
      | ok q =>
        obtain ⟨s2, m⟩ := q
        rw [writeChunks_cons_ok_ok S c cs s s1 s2 n m hw hw2] at h
        cases h

theorem totalSink_write {σ : Type} (f : σ → List Nat → σ) (g : σ → List Nat → Nat)
    (s : σ) (b : List Nat) : (totalSink f g).write s b = .ok (f s b, g s b) := rfl

theorem writeChunks_totalSink {σ : Type} (f : σ → List Nat → σ) (g : σ → List Nat → Nat)
    (cs : List (List Nat)) (s : σ) :
    writeChunks (totalSink f g) cs s =
      .ok (foldWrites f g (cs.map (List.map rot13byte)) s) := by
  induction cs generalizing s with
  | nil => rfl
  | cons c cs ih =>
    have hp : writeChunks (totalSink f g) cs (f s (c.map rot13byte)) =
        .ok ((foldWrites f g (cs.map (List.map rot13byte)) (f s (c.map rot13byte))).1,
             (foldWrites f g (cs.map (List.map rot13byte)) (f s (c.map rot13byte))).2) := by
      rw [ih]
    rw [writeChunks_cons_ok_ok (totalSink f g) c cs s _ _ _ _
      (totalSink_write f g s (c.map rot13byte)) hp]
    simp [List.map_cons, foldWrites]

/-- C1: the claim says `rot13_character(c, L)` returns `c` unchanged whenever
`c` lies outside the 26-byte range `[L, L+25]`.  At `c = 123` (`'{'`),
`L = 97` (`'a'`) the byte is outside `[97, 122]`, yet the source's guard
accepts the 27-byte range `[L, L+26]` and rotates it to `110` (`'n'`). -/
theorem c1_rot13_character_guard_off_by_one :
    rot13_character 123 97 = 110 ∧ 97 + 25 < 123 ∧ 110 ≠ 123 := by decide

/-- C3: the transcode operation is self-inverse: writing any byte sequence
through a `Rot13Writer` over a growable buffer and writing the result through
a second one restores the original sequence. -/
theorem c3_transcode_self_inverse (b : List Nat) : transcode (transcode b) = b := by
  rw [transcode_eq_map, transcode_eq_map, List.map_map]
  have h : rot13byte ∘ rot13byte = id := funext rot13byte_involutive
  rw [h, List.map_id]

/-- C5: the buffer after a `Rot13Writer` write holds exactly one output byte
per input byte, in order, given by the spec's per-byte mapping (a–z rotated
within a–z, A–Z within A–Z, all else unchanged); and the spec's concrete
pangram example transcodes as stated. -/
theorem c5_transcode_bytewise (b : List Nat) :
    transcode b = b.map specRot13 ∧
    transcode (asciiBytes "abcdefghijklmnopqrstuvwxyz ABCDEFGHIJKLMNOPQRSTUVWXYZ #!()") =
      asciiBytes "nopqrstuvwxyzabcdefghijklm NOPQRSTUVWXYZABCDEFGHIJKLM #!()" := by
  constructor
  · rw [transcode_eq_map]
    have h : rot13byte = specRot13 := funext rot13byte_eq_specRot13
    rw [h]
  · rw [transcode_eq_map]
    decide

/-- C7: the computed time window `t - (t % 30)` is an exact multiple of 30
for every timestamp `t`. -/
theorem c7_timeWindow_multiple_of_30 (t : Int) : (30 : Int) ∣ timeWindow t := by
  refine ⟨Int.tdiv t 30, ?_⟩
  have h := Int.tdiv_add_tmod t 30
  unfold timeWindow
  omega

/-- C8: writing an empty byte sequence returns a count of 0 and leaves the
wrapped sink untouched — this holds for every sink model, so no sink call can
have been made; in particular the empty transcode is empty. -/
theorem c8_empty_write_untouched {σ ε : Type} (S : SinkModel σ ε) (s : σ) :
    Rot13Writer.write S s [] = Except.ok (s, 0) ∧ transcode [] = [] :=
  ⟨rfl, rfl⟩

/-- C2: for a non-negative timestamp the time window is `t - (t mod 30)`; the
hashed buffer is the decoded bytes followed by the decimal ASCII digits of the
window with no separators, sign, or extra leading zeros; any 256-bit (32-byte)
digest renders as 64 lowercase hexadecimal characters; and for decoded text
`"hello"` with window `1700000000` the hashed buffer is exactly the 15 bytes
of `"hello1700000000"`. -/
theorem c2_pipeline_buffer_and_rendering (digest : List Nat)
    (h1 : digest.length = 32) (h2 : ∀ b ∈ digest, b < 256) :
    (renderHex digest).length = 64 ∧
    (∀ c ∈ renderHex digest, isLowerHexDigit c = true) ∧
    (∀ t : Int, 0 ≤ t → timeWindow t = t - t % 30) ∧
    hashedBuffer helloBytes 1700000000 =
      [104, 101, 108, 108, 111, 49, 55, 48, 48, 48, 48, 48, 48, 48, 48] ∧
    (hashedBuffer helloBytes 1700000000).length = 15 := by
  refine ⟨?_, renderHex_mem digest h2, ?_, ?_, ?_⟩
  · rw [renderHex_length, h1]
  · intro t ht
    unfold timeWindow
    rw [Int.tmod_eq_emod ht (by norm_num)]
  · decide
  · decide

/-- Witness for C2 at the all-zero 32-byte digest. -/
theorem c2_witness :
    (renderHex (List.replicate 32 0)).length = 64 ∧
    timeWindow 100 = 100 - 100 % 30 ∧
    hashedBuffer helloBytes 1700000000 =
      [104, 101, 108, 108, 111, 49, 55, 48, 48, 48, 48, 48, 48, 48, 48] :=
  ⟨(c2_pipeline_buffer_and_rendering (List.replicate 32 0) (by decide) (by decide)).1,
   (c2_pipeline_buffer_and_rendering (List.replicate 32 0) (by decide)
     (by decide)).2.2.1 100 (by decide),
   (c2_pipeline_buffer_and_rendering (List.replicate 32 0) (by decide)
     (by decide)).2.2.2.1⟩

/-- C4: two evaluations of the same decoded instructions at non-negative
timestamps in the same 30-second bucket hash the same buffer, hence produce
identical digests for any digest function. -/
theorem c4_same_window_same_digest (hash : List Nat → List Nat)
    (decoded : List Nat) (t1 t2 : Int) (h1 : 0 ≤ t1) (h2 : 0 ≤ t2)
    (hb : t1 / 30 = t2 / 30) :
    hash (pipelineBuffer decoded t1) = hash (pipelineBuffer decoded t2) := by
  have hw : timeWindow t1 = timeWindow t2 := by
    unfold timeWindow
    rw [Int.tmod_eq_emod h1 (by norm_num), Int.tmod_eq_emod h2 (by norm_num)]
    omega
  unfold pipelineBuffer
  rw [hw]

/-- Witness for C4 at timestamps 35 and 59 (both in bucket 1). -/
theorem c4_witness : id (pipelineBuffer [] 35) = id (pipelineBuffer [] 59) :=
  c4_same_window_same_digest id [] 35 59 (by decide) (by decide) (by decide)

/-- C6: a flush error of the wrapped sink is returned unchanged, and whenever
`Rot13Writer`'s write returns an error, that error is one the wrapped sink's
write produced — the writer introduces no error of its own. -/
theorem c6_error_propagation {σ ε : Type} (S : SinkModel σ ε) :
    (∀ (s : σ) (e : ε), S.flush s = Except.error e →
      Rot13Writer.flush S s = Except.error e) ∧
    (∀ (buf : List Nat) (s : σ) (e : ε), Rot13Writer.write S s buf = Except.error e →
      ∃ (s2 : σ) (c : List Nat), S.write s2 (c.map rot13byte) = Except.error e) := by
  constructor
  · intro s e h
    exact h
  · intro buf s e h
    unfold Rot13Writer.write at h
    by_cases hb : buf.isEmpty
    · rw [if_pos hb] at h
      cases h
    · rw [if_neg hb] at h
      exact writeChunks_error S _ s e h

/-- Witness for C6 at the always-failing sink and the one-byte input `[97]`. -/
theorem c6_witness :
    Rot13Writer.flush failSink () = Except.error 7 ∧
    ∃ (s2 : Unit) (c : List Nat), failSink.write s2 (c.map rot13byte) = Except.error 7 :=
  ⟨(c6_error_propagation failSink).1 () 7 rfl,
   (c6_error_propagation failSink).2 [97] () 7
     (by simp [Rot13Writer.write, chunksOf, writeChunks, failSink])⟩

/-- C9: whenever `Rot13Writer::write`'s range dispatch invokes
`rot13_character` with bound `L`, the byte lies inside `[L, L+25]`, so the
defensive early-return inside `rot13_character` is unreachable from the
writer: the per-byte transform is unchanged if the guard is removed. -/
theorem c9_guard_unreachable_from_writer (c : Nat) :
    ((LOWER_BEGIN_U8 ≤ c ∧ c ≤ LOWER_END_U8) →
      LOWER_BEGIN_U8 ≤ c ∧ c ≤ LOWER_BEGIN_U8 + 25) ∧
    ((UPPER_BEGIN_U8 ≤ c ∧ c ≤ UPPER_END_U8) →
      UPPER_BEGIN_U8 ≤ c ∧ c ≤ UPPER_BEGIN_U8 + 25) ∧
    rot13byte c = rot13byteNoGuard c := by
  refine ⟨fun h => ?_, fun h => ?_, ?_⟩
  · unfold LOWER_BEGIN_U8 LOWER_END_U8 at *
    omega
  · unfold UPPER_BEGIN_U8 UPPER_END_U8 at *
    omega
  · unfold rot13byte rot13byteNoGuard rot13_character rot13CoreNoGuard
      LOWER_BEGIN_U8 LOWER_END_U8 UPPER_BEGIN_U8 UPPER_END_U8
    split_ifs <;> omega

/-- Witness for C9 at the byte `97` (`'a'`). -/
theorem c9_witness :
    (LOWER_BEGIN_U8 ≤ 97 ∧ 97 ≤ LOWER_BEGIN_U8 + 25) ∧
    rot13byte 97 = rot13byteNoGuard 97 :=
  ⟨(c9_guard_unreachable_from_writer 97).1 (by decide),
   (c9_guard_unreachable_from_writer 97).2.2⟩

/-- C10: over any sink that accepts every write (reporting whatever count it
likes), the writer forwards every transformed chunk in order — the final sink
state folds `f` over all chunks — and returns the sum of the sink-reported
counts; concretely, a sink reporting 1 per call still receives all three
transformed bytes of `[97, 98, 99]` while the writer returns 1 < 3. -/
theorem c10_short_writes_forward_all {σ : Type} (f : σ → List Nat → σ)
    (g : σ → List Nat → Nat) (buf : List Nat) (s : σ) :
    Rot13Writer.write (totalSink f g) s buf =
      Except.ok (foldWrites f g ((chunksOf buf).map (List.map rot13byte)) s) ∧
    Rot13Writer.write
        (totalSink (fun (v : List Nat) b => v ++ b) (fun _ _ => 1)) [] [97, 98, 99] =
      Except.ok ([110, 111, 112], 1) := by
  constructor
  · cases buf with
    | nil => simp [Rot13Writer.write, chunksOf, foldWrites]
    | cons x xs =>
      unfold Rot13Writer.write
      rw [if_neg (by simp), writeChunks_totalSink]
  · have h1 : chunksOf [97, 98, 99] = [[97, 98, 99]] := by simp [chunksOf]
    unfold Rot13Writer.write
    rw [if_neg (by simp), writeChunks_totalSink, h1]
    rfl
